import Mathlib

/-!
# Verification of the Ally Platform configuration-resolution core

This file is a shallow embedding, in Lean 4, of the configuration-resolution
logic of the Ally Platform backend:

* `backend/app/config_manager.py` — the tenant-scoped `ConfigurationManager`
  (Pydantic validation, business rules, save / get / delete / list /
  feature-flag operations over a relational row store and a Redis cache);
* `backend/app/core/config.py` — the Redis-backed cache helpers
  (`clear_cached_config`);
* `backend/app/core/environment.py` — `EnvironmentConfig.get` with boolean
  casting.

Modelling conventions:

* JSON documents are values of the inductive type `JValue`; Python dicts are
  association lists of string keys (Python dict keys are unique; the lemmas
  that need uniqueness take it as a hypothesis).
* JSON numbers are modelled exactly as decimals: `jnum m e` denotes
  `m / 10 ^ e`.  Every numeric literal appearing in the sources and in JSON
  documents is a decimal, so this representation is lossless; numeric
  comparison and equality are cross-multiplied integer arithmetic.
* The database session and the Redis client are modelled as explicit state
  (`ManagerState`); serialization (`json.dumps` / `json.loads`) round-trips
  on `JValue` and is therefore elided; the Redis client is modelled as
  connected (when it is absent every cache operation in the Python code is a
  no-op and resolution degrades to the database path).
* Wall-clock values (`datetime.now(timezone.utc).isoformat()` and
  `datetime.utcnow()`) are passed to the operations as explicit parameters
  (`nowIso : String`, `nowUtc : Nat`).
* `ConfigurationError` carries its machine-readable `code`; the
  human-readable interpolated message strings are elided.
* Pydantic v2 lax coercions between primitive types (for instance the string
  "true" feeding a `bool` field) are not modelled: a field must carry its
  JSON type.  Documents arriving through the JSON API carry exact types.
-/

set_option autoImplicit false

namespace Ally

/-- A JSON document: the values manipulated by the configuration manager. -/
inductive JValue where
  | jnull
  | jbool (b : Bool)
  | jnum (m : Int) (e : Nat)
  | jstr (s : String)
  | jarr (elems : List JValue)
  | jobj (fields : List (String × JValue))

open JValue

/-- Numeric equality of the decimals `m1 / 10 ^ e1` and `m2 / 10 ^ e2`. -/
def jnumEq (m1 : Int) (e1 : Nat) (m2 : Int) (e2 : Nat) : Bool :=
  m1 * 10 ^ e2 == m2 * 10 ^ e1

/-- Numeric `≤` on decimals. -/
def jnumLe (m1 : Int) (e1 : Nat) (m2 : Int) (e2 : Nat) : Bool :=
  decide (m1 * 10 ^ e2 ≤ m2 * 10 ^ e1)

/-- Whether the decimal `m / 10 ^ e` is an integer (Pydantic accepts an
exact float where an `int` is required). -/
def jnumIsInt (m : Int) (e : Nat) : Bool :=
  m % (10 : Int) ^ e == 0

/-- First-match association lookup: Python `dict[key]` / `dict.get(key)`. -/
def lookupJ : List (String × JValue) → String → Option JValue
  | [], _ => none
  | (k, v) :: rest, key => if k = key then some v else lookupJ rest key

/-- Python `doc.get(key)` on a JSON value: `none` when the value is not an
object or the key is absent. -/
def getField (v : JValue) (key : String) : Option JValue :=
  match v with
  | jobj fields => lookupJ fields key
  | _ => none

/-- Python truthiness of a JSON value (`if value:`). -/
def truthy : JValue → Bool
  | jnull => false
  | jbool b => b
  | jnum m _ => !(m == 0)
  | jstr s => !s.toList.isEmpty
  | jarr elems => !elems.isEmpty
  | jobj fields => !fields.isEmpty

/-- Substring test on character lists (Python `needle in haystack` on
strings); the empty needle is contained in everything. -/
def listContainsSub (needle : List Char) : List Char → Bool
  | [] => needle.isEmpty
  | c :: rest => needle.isPrefixOf (c :: rest) || listContainsSub needle rest

/-- Python substring containment `pat in s`. -/
def strContains (s pat : String) : Bool :=
  listContainsSub pat.toList s.toList

mutual

/-- An executable size of a JSON value, used to supply fuel to `pyEq`. -/
def sizeJ : JValue → Nat
  | .jnull => 1
  | .jbool _ => 1
  | .jnum _ _ => 1
  | .jstr _ => 1
  | .jarr elems => 1 + sizeArrJ elems
  | .jobj fields => 1 + sizeObjJ fields

/-- Size of a JSON array body. -/
def sizeArrJ : List JValue → Nat
  | [] => 0
  | v :: rest => 1 + sizeJ v + sizeArrJ rest

/-- Size of a JSON object body. -/
def sizeObjJ : List (String × JValue) → Nat
  | [] => 0
  | (_, v) :: rest => 1 + sizeJ v + sizeObjJ rest

end

/-- Fuelled Python `==` on JSON values: `True == 1`, `1 == 1.0`, lists
compare pointwise, dicts compare as key-value maps.  The fuel strictly
bounds the recursion depth; `pyEq` supplies enough of it. -/
def pyEqF : Nat → JValue → JValue → Bool
  | 0, _, _ => false
  | fuel + 1, a, b =>
    match a, b with
    | jnull, jnull => true
    | jbool x, jbool y => x == y
    | jbool x, jnum m e => jnumEq m e (if x then 1 else 0) 0
    | jnum m e, jbool y => jnumEq m e (if y then 1 else 0) 0
    | jnum m1 e1, jnum m2 e2 => jnumEq m1 e1 m2 e2
    | jstr s, jstr t => s == t
    | jarr xs, jarr ys =>
      xs.length == ys.length &&
        (xs.zip ys).all (fun p => pyEqF fuel p.1 p.2)
    | jobj xs, jobj ys =>
      xs.length == ys.length &&
        xs.all (fun kv =>
          match lookupJ ys kv.1 with
          | some w => pyEqF fuel kv.2 w
          | none => false)
    | _, _ => false

/-- Python `==` on JSON values. -/
def pyEq (a b : JValue) : Bool :=
  pyEqF (sizeJ a + sizeJ b) a b

/-- Python `x in container`.  `.error ()` marks a `TypeError` (membership in
a non-container, a non-string operand against a string, or an unhashable
operand against a dict). -/
def pyIn (x : JValue) (container : JValue) : Except Unit Bool :=
  match container with
  | jarr xs => .ok (xs.any (pyEq x))
  | jstr s =>
    match x with
    | jstr t => .ok (strContains s t)
    | _ => .error ()
  | jobj fields =>
    match x with
    | jarr _ => .error ()
    | jobj _ => .error ()
    | _ => .ok (fields.any (fun kv => pyEq x (jstr kv.1)))
  | _ => .error ()

/-! ## Pattern checks used by the Pydantic field constraints -/

/-- A nonempty run of ASCII digits (`\d+`). -/
def isDigitsL (l : List Char) : Bool :=
  !l.isEmpty && l.all Char.isDigit

/-- Split a character list at `'.'` separators (Python `s.split(".")`). -/
def splitDot : List Char → List (List Char)
  | [] => [[]]
  | c :: rest =>
    if c = '.' then [] :: splitDot rest
    else
      match splitDot rest with
      | g :: gs => (c :: g) :: gs
      | [] => [[c]]

/-- `ConfigMeta.version`: `^\d+\.\d+\.\d+$`. -/
def isSemver (s : String) : Bool :=
  match splitDot s.toList with
  | [a, b, c] => isDigitsL a && isDigitsL b && isDigitsL c
  | _ => false

/-- `ConfigMeta.clientId`: `^[a-zA-Z0-9_-]{3,50}$`. -/
def isClientIdStr (s : String) : Bool :=
  decide (3 ≤ s.toList.length) && decide (s.toList.length ≤ 50) &&
    s.toList.all (fun c => c.isAlphanum || c = '_' || c = '-')

/-- One hex digit `[A-Fa-f0-9]`. -/
def isHexDigitChar (c : Char) : Bool :=
  c.isDigit || ('a' ≤ c && c ≤ 'f') || ('A' ≤ c && c ≤ 'F')

/-- `BrandingConfig.primaryColor` and friends: `^#([A-Fa-f0-9]{6}|[A-Fa-f0-9]{3})$`. -/
def isHexColor (s : String) : Bool :=
  match s.toList with
  | '#' :: rest =>
    (rest.length == 6 || rest.length == 3) && rest.all isHexDigitChar
  | _ => false

/-- The fixed enumerated set of AI model identifiers (both the `AIConfig.model`
regex alternatives and `ConfigurationManager._is_model_available`). -/
def availableModels : List String :=
  ["gemini-2.5-flash-lite", "gemini-2.5-flash", "gemini-2.0-flash-exp",
   "gpt-4o", "gpt-4o-mini", "claude-3-5-sonnet", "claude-3-5-haiku"]

/-! ## Field validators (one per Pydantic field shape) -/

/-- Required `str` field constrained by `p`. -/
def reqStrPat (fields : List (String × JValue)) (key : String)
    (p : String → Bool) : Bool :=
  match lookupJ fields key with
  | some (jstr s) => p s
  | _ => false

/-- `Optional[str]` field: absent, `None`, or a string. -/
def optStr (fields : List (String × JValue)) (key : String) : Bool :=
  match lookupJ fields key with
  | none => true
  | some jnull => true
  | some (jstr _) => true
  | some _ => false

/-- `Optional[str]` field constrained by `p` when a string is given. -/
def optStrPat (fields : List (String × JValue)) (key : String)
    (p : String → Bool) : Bool :=
  match lookupJ fields key with
  | none => true
  | some jnull => true
  | some (jstr s) => p s
  | some _ => false

/-- Non-optional `str` field with a default: absent or a string matching `p`
(`None` is rejected). -/
def dfltStrPat (fields : List (String × JValue)) (key : String)
    (p : String → Bool) : Bool :=
  match lookupJ fields key with
  | none => true
  | some (jstr s) => p s
  | some _ => false

/-- Non-optional `bool` field with a default: absent or a boolean. -/
def optBool (fields : List (String × JValue)) (key : String) : Bool :=
  match lookupJ fields key with
  | none => true
  | some (jbool _) => true
  | some _ => false

/-- `float` field with a default and `ge`/`le` bounds. -/
def optNumRange (fields : List (String × JValue)) (key : String)
    (lo hi : Int) : Bool :=
  match lookupJ fields key with
  | none => true
  | some (jnum m e) => jnumLe lo 0 m e && jnumLe m e hi 0
  | some _ => false

/-- `int` field with a default and `ge`/`le` bounds (an exact float is
accepted as an integer, mirroring Pydantic). -/
def optIntRange (fields : List (String × JValue)) (key : String)
    (lo hi : Int) : Bool :=
  match lookupJ fields key with
  | none => true
  | some (jnum m e) => jnumIsInt m e && jnumLe lo 0 m e && jnumLe m e hi 0
  | some _ => false

/-! ## Section validators (the Pydantic models of `config_manager.py`) -/

/-- `ConfigMeta`. -/
def validConfigMeta (v : JValue) : Bool :=
  match v with
  | jobj fields =>
    reqStrPat fields "version" isSemver &&
    reqStrPat fields "clientId" isClientIdStr &&
    reqStrPat fields "lastUpdated" (fun _ => true) &&
    optStr fields "configName" &&
    optStr fields "description"
  | _ => false

/-- `BrandingConfig`. -/
def validBranding (v : JValue) : Bool :=
  match v with
  | jobj fields =>
    reqStrPat fields "companyName"
      (fun s => decide (1 ≤ s.length) && decide (s.length ≤ 100)) &&
    optStr fields "logoUrl" &&
    optStr fields "faviconUrl" &&
    reqStrPat fields "primaryColor" isHexColor &&
    optStrPat fields "secondaryColor" isHexColor &&
    optStrPat fields "accentColor" isHexColor &&
    optStr fields "font" &&
    optStr fields "customCss"
  | _ => false

/-- `FeaturesConfig`: nine boolean toggles, all with defaults. -/
def validFeatures (v : JValue) : Bool :=
  match v with
  | jobj fields =>
    optBool fields "chatEnabled" &&
    optBool fields "voiceEnabled" &&
    optBool fields "fileUploadEnabled" &&
    optBool fields "realTimeEnabled" &&
    optBool fields "analyticsEnabled" &&
    optBool fields "notificationsEnabled" &&
    optBool fields "collaborationEnabled" &&
    optBool fields "apiAccessEnabled" &&
    optBool fields "exportEnabled"
  | _ => false

/-- `UIConfig`. -/
def validUI (v : JValue) : Bool :=
  match v with
  | jobj fields =>
    dfltStrPat fields "layout"
      (fun s => ["modern", "classic", "minimal", "dashboard"].contains s) &&
    optBool fields "darkMode" &&
    optBool fields "themeToggle" &&
    optBool fields "sidebarCollapsible" &&
    optBool fields "compactMode" &&
    optBool fields "animationsEnabled" &&
    optBool fields "accessibilityMode"
  | _ => false

/-- `AIConfig`. -/
def validAI (v : JValue) : Bool :=
  match v with
  | jobj fields =>
    reqStrPat fields "model" (fun s => availableModels.contains s) &&
    optStr fields "promptTemplate" &&
    optNumRange fields "temperature" 0 2 &&
    optIntRange fields "maxTokens" 100 8000 &&
    optStr fields "systemMessage" &&
    dfltStrPat fields "responseFormat"
      (fun s => ["text", "markdown", "json"].contains s)
  | _ => false

/-- `SecurityConfig`: every field has a default. -/
def validSecurity (v : JValue) : Bool :=
  match v with
  | jobj fields =>
    optIntRange fields "jwtExpiration" 300 86400 &&
    optIntRange fields "refreshTokenExpiration" 3600 2592000 &&
    optIntRange fields "rateLimit" 10 10000 &&
    optIntRange fields "sessionTimeout" 300 28800 &&
    optBool fields "mfaEnabled" &&
    true
  | _ => false

/-- A required section: present and valid (a missing or non-object section is
a Pydantic validation failure). -/
def sectionOk (fields : List (String × JValue)) (key : String)
    (valid : JValue → Bool) : Bool :=
  match lookupJ fields key with
  | some v => valid v
  | none => false

/-- `ClientConfigModel(**config)`: the six required sections validate; extra
top-level keys (such as `languages` or `analytics`) are ignored. -/
def validClientConfig (config : JValue) : Bool :=
  match config with
  | jobj fields =>
    sectionOk fields "meta" validConfigMeta &&
    sectionOk fields "branding" validBranding &&
    sectionOk fields "features" validFeatures &&
    sectionOk fields "ui" validUI &&
    sectionOk fields "ai" validAI &&
    sectionOk fields "security" validSecurity
  | _ => false

/-! ## Business rules and `validate_configuration` -/

/-- `ConfigurationManager._validate_business_rules`.  `.error ()` marks any
raised exception (`ValueError` from the two rules, or `AttributeError` /
`TypeError` from `.get` and `in` on ill-typed values); `validate_configuration`
maps every such exception to a `VALIDATION_ERROR`. -/
def validateBusinessRules (config : JValue) : Except Unit Unit :=
  match (getField config "languages").getD (jobj []) with
  | jobj langs =>
    let defaultVal := (lookupJ langs "default").getD jnull
    let supported := (lookupJ langs "supported").getD (jarr [])
    let langCheck : Except Unit Unit :=
      if truthy defaultVal then
        match pyIn defaultVal supported with
        | .error _ => .error ()
        | .ok true => .ok ()
        | .ok false => .error ()
      else .ok ()
    match langCheck with
    | .error e => .error e
    | .ok _ =>
      match (getField config "ai").getD (jobj []) with
      | jobj aiFields =>
        let modelVal := (lookupJ aiFields "model").getD jnull
        if truthy modelVal then
          match pyIn modelVal (jarr (availableModels.map jstr)) with
          | .ok true => .ok ()
          | _ => .error ()
        else .ok ()
      | _ => .error ()
  | _ => .error ()

/-- The typed configuration error; the interpolated message text is elided,
the machine-readable `code` is kept. -/
structure ConfigurationError where
  code : String
deriving DecidableEq

/-- `ConfigurationManager.validate_configuration`: Pydantic structural
validation, then the business rules; every failure is re-raised as a
`ConfigurationError` with code `VALIDATION_ERROR`. -/
def validate_configuration (config : JValue) :
    Except ConfigurationError Bool :=
  if validClientConfig config then
    match validateBusinessRules config with
    | .ok _ => .ok true
    | .error _ => .error ⟨"VALIDATION_ERROR"⟩
  else
    .error ⟨"VALIDATION_ERROR"⟩

/-! ## The persistent state of a `ConfigurationManager` -/

/-- One row of the `client_configurations` table (`client_id` is the primary
key; `config_data` holds the parsed form of the serialized document). -/
structure ConfigRow where
  client_id : String
  config_data : JValue
  version : JValue
  created_at : Nat
  updated_at : Nat
  is_active : Bool

/-- The observable state of a `ConfigurationManager`: the relational table,
the Redis keyspace, and the default document loaded at construction time
(`default-config.json`, or `{}` when that file is unreadable). -/
structure ManagerState where
  db : List ConfigRow
  cache : List (String × JValue)
  default_config : JValue

/-- `ConfigurationManager._get_cache_key`. -/
def cacheKey (client_id : String) : String :=
  "config:client:" ++ client_id

/-- Redis `SETEX`-style write: replace the first binding of the key, or
append a fresh one. -/
def assocSet : List (String × JValue) → String → JValue →
    List (String × JValue)
  | [], key, v => [(key, v)]
  | (k, w) :: rest, key, v =>
    if k = key then (key, v) :: rest else (k, w) :: assocSet rest key v

/-- Redis `DEL` of one key. -/
def assocErase (l : List (String × JValue)) (key : String) :
    List (String × JValue) :=
  l.filter (fun kv => !(kv.1 == key))

/-- First active row for a client:
`query(...).filter(client_id == cid, is_active == True).first()`. -/
def findActiveRow (db : List ConfigRow) (client_id : String) :
    Option ConfigRow :=
  db.find? (fun r => r.client_id == client_id && r.is_active)

/-- First row for a client regardless of the active flag:
`query(...).filter(client_id == cid).first()`. -/
def findRow (db : List ConfigRow) (client_id : String) : Option ConfigRow :=
  db.find? (fun r => r.client_id == client_id)

/-- The database branch of `get_configuration`: on an active row, return its
document and populate the cache; otherwise return the default document. -/
def getFromDb (st : ManagerState) (client_id : String) :
    Except ConfigurationError (JValue × ManagerState) :=
  match findActiveRow st.db client_id with
  | some r =>
    .ok (r.config_data,
         { st with cache := assocSet st.cache (cacheKey client_id) r.config_data })
  | none => .ok (st.default_config, st)

/-- `ConfigurationManager.get_configuration`: a truthy cached document wins;
otherwise fall through to the database (and, on a miss there, the default). -/
def get_configuration (st : ManagerState) (client_id : String) :
    Except ConfigurationError (JValue × ManagerState) :=
  match lookupJ st.cache (cacheKey client_id) with
  | some v => if truthy v then .ok (v, st) else getFromDb st client_id
  | none => getFromDb st client_id

/-- `config["meta"]["lastUpdated"] = datetime.now(timezone.utc).isoformat()`.
The fallback branches are unreachable when the document has passed
validation (which guarantees an object `meta` section). -/
def setMetaLastUpdated (config : JValue) (nowIso : String) : JValue :=
  match config with
  | .jobj fields =>
    match lookupJ fields "meta" with
    | some (.jobj metaFields) =>
      .jobj (assocSet fields "meta"
        (.jobj (assocSet metaFields "lastUpdated" (.jstr nowIso))))
    | _ => .jobj fields
  | v => v

/-- The upsert inside `save_configuration`: overwrite the document, version
and update timestamp of the first row with this client id (the active flag is
left untouched), or append a fresh active row. -/
def upsertRowDb : List ConfigRow → String → JValue → JValue → Nat →
    List ConfigRow
  | [], client_id, cfg, ver, now =>
    [{ client_id := client_id, config_data := cfg, version := ver,
       created_at := now, updated_at := now, is_active := true }]
  | r :: rest, client_id, cfg, ver, now =>
    if r.client_id = client_id then
      { r with config_data := cfg, version := ver, updated_at := now } :: rest
    else
      r :: upsertRowDb rest client_id cfg ver now

/-- `ConfigurationManager.save_configuration`: validate, stamp
`meta.lastUpdated`, upsert the row, invalidate this client's cache entry. -/
def save_configuration (st : ManagerState) (client_id : String)
    (config : JValue) (nowIso : String) (nowUtc : Nat) :
    Except ConfigurationError (Bool × ManagerState) :=
  match validate_configuration config with
  | .error e => .error e
  | .ok _ =>
    let stamped := setMetaLastUpdated config nowIso
    let ver := ((getField stamped "meta").bind
      (fun m => getField m "version")).getD .jnull
    .ok (true,
      { st with
        db := upsertRowDb st.db client_id stamped ver nowUtc,
        cache := assocErase st.cache (cacheKey client_id) })

/-- The soft delete inside `delete_configuration`: clear the active flag and
refresh the update timestamp of the first row with this client id; `none`
when no row exists. -/
def markInactive : List ConfigRow → String → Nat → Option (List ConfigRow)
  | [], _, _ => none
  | r :: rest, client_id, now =>
    if r.client_id = client_id then
      some ({ r with is_active := false, updated_at := now } :: rest)
    else
      (markInactive rest client_id now).map (r :: ·)

/-- `ConfigurationManager.delete_configuration`: soft delete plus cache
invalidation; `False` (and no state change) when no row exists. -/
def delete_configuration (st : ManagerState) (client_id : String)
    (nowUtc : Nat) : Except ConfigurationError (Bool × ManagerState) :=
  match markInactive st.db client_id nowUtc with
  | some db' =>
    .ok (true,
      { st with db := db', cache := assocErase st.cache (cacheKey client_id) })
  | none => .ok (false, st)

/-- `updated_at.isoformat()`: an injective rendering of the model clock. -/
def isoOfTick (n : Nat) : String :=
  toString n

/-- One entry of `list_configurations`; `.error ()` marks the
`AttributeError` raised by `.get` when a stored document is not an object. -/
def rowMetadata (r : ConfigRow) : Except Unit JValue :=
  match r.config_data with
  | .jobj fields =>
    .ok (.jobj
      [("clientId", .jstr r.client_id),
       ("version", r.version),
       ("lastUpdated", .jstr (isoOfTick r.updated_at)),
       ("meta", (lookupJ fields "meta").getD (.jobj []))])
  | _ => .error ()

/-- The result-building loop of `list_configurations`: metadata of each row
in order; the first exception aborts the loop. -/
def mapMetadata : List ConfigRow → Except Unit (List JValue)
  | [] => .ok []
  | r :: rest =>
    match rowMetadata r with
    | .error e => .error e
    | .ok v =>
      match mapMetadata rest with
      | .error e => .error e
      | .ok vs => .ok (v :: vs)

/-- `ConfigurationManager.list_configurations`: metadata of every active row;
any exception while building the list is re-raised as a `LIST_ERROR`. -/
def list_configurations (st : ManagerState) :
    Except ConfigurationError (List JValue) :=
  match mapMetadata (st.db.filter (fun r => r.is_active)) with
  | .ok l => .ok l
  | .error _ => .error ⟨"LIST_ERROR"⟩

/-- `ConfigurationManager.get_feature_flag`: resolve the configuration and
read `features[name]`; every failure (resolution error, non-object document,
non-object `features` value, missing flag) yields `False`.  Totality of this
definition is the model's rendering of "never raises"; the cache side effect
of the inner `get_configuration` call is not observable in the returned
value and is dropped. -/
def get_feature_flag (st : ManagerState) (client_id feature_name : String) :
    JValue :=
  match get_configuration st client_id with
  | .error _ => .jbool false
  | .ok (config, _) =>
    match config with
    | .jobj fields =>
      match (lookupJ fields "features").getD (.jobj []) with
      | .jobj featureFields =>
        (lookupJ featureFields feature_name).getD (.jbool false)
      | _ => .jbool false
    | _ => .jbool false

/-! ## Projection helpers used to phrase the theorems -/

/-- The document component of `get_configuration`. -/
def getConfigDoc (st : ManagerState) (client_id : String) :
    Except ConfigurationError JValue :=
  (get_configuration st client_id).map Prod.fst

/-- The boolean result of `save_configuration`. -/
def saveResult (st : ManagerState) (client_id : String) (config : JValue)
    (nowIso : String) (nowUtc : Nat) : Except ConfigurationError Bool :=
  (save_configuration st client_id config nowIso nowUtc).map Prod.fst

/-- The state after `save_configuration` (unchanged on error). -/
def saveState (st : ManagerState) (client_id : String) (config : JValue)
    (nowIso : String) (nowUtc : Nat) : ManagerState :=
  match save_configuration st client_id config nowIso nowUtc with
  | .ok p => p.2
  | .error _ => st

/-- The boolean result of `delete_configuration`. -/
def deleteResult (st : ManagerState) (client_id : String) (nowUtc : Nat) :
    Except ConfigurationError Bool :=
  (delete_configuration st client_id nowUtc).map Prod.fst

/-- The state after `delete_configuration` (unchanged on a no-op). -/
def deleteState (st : ManagerState) (client_id : String) (nowUtc : Nat) :
    ManagerState :=
  match delete_configuration st client_id nowUtc with
  | .ok p => p.2
  | .error _ => st

/-- Whether the cache holds a truthy document for a client (the condition
under which `get_configuration` short-circuits). -/
def cacheHit (st : ManagerState) (client_id : String) : Bool :=
  match lookupJ st.cache (cacheKey client_id) with
  | some v => truthy v
  | none => false

/-- Whether any row (active or not) exists for a client. -/
def rowExists (db : List ConfigRow) (client_id : String) : Bool :=
  db.any (fun r => r.client_id == client_id)

/-- Whether `list_configurations` succeeds and mentions the client id. -/
def listedHasClient (st : ManagerState) (client_id : String) : Bool :=
  match list_configurations st with
  | .ok l =>
    l.any (fun e =>
      match getField e "clientId" with
      | some (.jstr s) => s == client_id
      | _ => false)
  | .error _ => false

/-- The value stored at `features[name]` of a resolved document, in the
words of the specification: the flag's value, or nothing when the document
or its `features` section does not carry it. -/
def featuresValue (config : JValue) (name : String) : Option JValue :=
  (getField config "features").bind (fun f => getField f name)

/-- Remove one key of a JSON object (other values untouched). -/
def objEraseKey (v : JValue) (key : String) : JValue :=
  match v with
  | .jobj fields => .jobj (fields.filter (fun kv => !(kv.1 == key)))
  | w => w

/-- The key list of a JSON object. -/
def objKeys (v : JValue) : List String :=
  match v with
  | .jobj fields => fields.map (·.1)
  | _ => []

/-- The `meta.lastUpdated` value of a document. -/
def metaLastUpdated (config : JValue) : Option JValue :=
  (getField config "meta").bind (fun m => getField m "lastUpdated")

/-- The document held by the (first) database row of a client after a save. -/
def savedRowDoc (st : ManagerState) (client_id : String) (config : JValue)
    (nowIso : String) (nowUtc : Nat) : Option JValue :=
  (findRow (saveState st client_id config nowIso nowUtc).db client_id).map
    (fun r => r.config_data)

/-! ## The Redis cache helpers of `core/config.py` -/

/-- `get_redis_key`. -/
def get_redis_key (config_file : String) : String :=
  "config:" ++ config_file

/-- Whether a Redis key matches the `config:*` pattern. -/
def startsWithConfig (s : String) : Bool :=
  "config:".toList.isPrefixOf s.toList

/-- The clear-all branch of `clear_cached_config`: list the `config:*` keys;
when none match, return `True` without deleting anything; otherwise delete
them and return whether the delete count was positive. -/
def clearAllConfigKeys (redis : List (String × JValue)) :
    Bool × List (String × JValue) :=
  let keys := redis.filter (fun kv => startsWithConfig kv.1)
  if keys.isEmpty then (true, redis)
  else (decide (0 < keys.length),
        redis.filter (fun kv => !startsWithConfig kv.1))

/-- `clear_cached_config(config_file)` from `core/config.py`, over an
explicit Redis keyspace.  `redisAvailable` is the module's
`REDIS_AVAILABLE` flag; `config_file = none` (or an empty, hence falsy,
string) selects the clear-all branch. -/
def clear_cached_config (redisAvailable : Bool)
    (redis : List (String × JValue)) (config_file : Option String) :
    Bool × List (String × JValue) :=
  if redisAvailable then
    match config_file with
    | some f =>
      if !f.toList.isEmpty then
        (decide (0 < redis.countP (fun kv => kv.1 == get_redis_key f)),
         redis.filter (fun kv => !(kv.1 == get_redis_key f)))
      else clearAllConfigKeys redis
    | none => clearAllConfigKeys redis
  else (false, redis)

/-! ## `EnvironmentConfig.get` with boolean casting (`core/environment.py`) -/

/-- The Python values that flow through `EnvironmentConfig.get`: the `None`
sentinel, booleans, integers and strings. -/
inductive PyVal where
  | pynone
  | pybool (b : Bool)
  | pyint (n : Int)
  | pystr (s : String)

/-- Python `str(value)`. -/
def pyStr : PyVal → String
  | .pynone => "None"
  | .pybool true => "True"
  | .pybool false => "False"
  | .pyint n => toString n
  | .pystr s => s

/-- ASCII lowercasing of one character (`str.lower`). -/
def lowerChar (c : Char) : Char :=
  if 'A' ≤ c ∧ c ≤ 'Z' then Char.ofNat (c.toNat + 32) else c

/-- ASCII lowercasing of a string (`str.lower`). -/
def lowerStr (s : String) : String :=
  ⟨s.toList.map lowerChar⟩

/-- The accepted true spellings of the boolean cast. -/
def boolTrueStrings : List String :=
  ["true", "1", "yes", "on"]

/-- `EnvironmentConfig.get(key, default, bool)`: `os.getenv(key, default)`,
return the default when that is `None`, else cast with
`str(value).lower() in ("true", "1", "yes", "on")`. -/
def envGetBool (env : String → Option String) (key : String)
    (default : PyVal) : PyVal :=
  let value : PyVal :=
    match env key with
    | some s => .pystr s
    | none => default
  match value with
  | .pynone => default
  | v => .pybool (boolTrueStrings.contains (lowerStr (pyStr v)))

/-- Whether a value would satisfy the `AIConfig.model` constraint: a string
drawn from the fixed enumerated model set. -/
def isAllowedModelVal (v : JValue) : Bool :=
  match v with
  | .jstr s => availableModels.contains s
  | _ => false

instance {ε α : Type} [DecidableEq ε] [DecidableEq α] :
    DecidableEq (Except ε α) := fun a b =>
  match a, b with
  | .ok x, .ok y =>
    if h : x = y then isTrue (by rw [h])
    else isFalse (by intro hc; cases hc; exact h rfl)
  | .error x, .error y =>
    if h : x = y then isTrue (by rw [h])
    else isFalse (by intro hc; cases hc; exact h rfl)
  | .ok _, .error _ => isFalse (by intro hc; cases hc)
  | .error _, .ok _ => isFalse (by intro hc; cases hc)

/-! ## Concrete documents and states used by witnesses and counterexamples -/

/-- A fully valid configuration document. -/
def validDemoDoc : JValue :=
  jobj
    [("meta", jobj
        [("version", jstr "1.0.0"),
         ("clientId", jstr "demo-client"),
         ("lastUpdated", jstr "2025-01-01T00:00:00+00:00")]),
     ("branding", jobj
        [("companyName", jstr "Acme"),
         ("primaryColor", jstr "#3B82F6")]),
     ("features", jobj [("chatEnabled", jbool true)]),
     ("ui", jobj []),
     ("ai", jobj
        [("model", jstr "gpt-4o"),
         ("temperature", jnum 7 1),
         ("maxTokens", jnum 2000 0)]),
     ("security", jobj [])]

/-- A state whose only row for `demo-client` has been soft-deleted
(`is_active = False`). -/
def softDeletedState : ManagerState :=
  { db := [{ client_id := "demo-client", config_data := jobj [],
             version := jstr "1.0.0", created_at := 0, updated_at := 0,
             is_active := false }],
    cache := [],
    default_config := jobj [] }

/-- A document that is valid in every section yet carries an empty-string
`languages.default` that is not a member of `languages.supported`. -/
def emptyDefaultLangDoc : JValue :=
  jobj
    [("meta", jobj
        [("version", jstr "1.0.0"),
         ("clientId", jstr "demo-client"),
         ("lastUpdated", jstr "2025-01-01T00:00:00+00:00")]),
     ("branding", jobj
        [("companyName", jstr "Acme"),
         ("primaryColor", jstr "#fff")]),
     ("features", jobj []),
     ("ui", jobj []),
     ("ai", jobj [("model", jstr "gpt-4o")]),
     ("security", jobj []),
     ("languages", jobj
        [("default", jstr ""),
         ("supported", jarr [jstr "en"])])]

/-- A document whose `languages.default` is `"de"` while only `"en"` is
supported. -/
def germanDefaultLangDoc : JValue :=
  jobj
    [("languages", jobj
        [("default", jstr "de"),
         ("supported", jarr [jstr "en"])])]

/-- A document whose `ai.model` names a model outside the enumerated set. -/
def unknownModelDoc : JValue :=
  jobj [("ai", jobj [("model", jstr "gpt-5")])]

/-- The state of a freshly constructed manager over an empty table. -/
def emptyState : ManagerState :=
  { db := [], cache := [], default_config := jobj [] }

/-- A state holding one active row for `demo-client`. -/
def oneRowState : ManagerState :=
  { db := [{ client_id := "demo-client", config_data := validDemoDoc,
             version := jstr "1.0.0", created_at := 0, updated_at := 0,
             is_active := true }],
    cache := [],
    default_config := jobj [("fallback", jbool true)] }

/-! ## Association-list and row-store lemmas -/

theorem lookupJ_assocSet_self (l : List (String × JValue)) (k : String)
    (v : JValue) : lookupJ (assocSet l k v) k = some v := by
  induction l with
  | nil => simp [assocSet, lookupJ]
  | cons kv rest ih =>
    obtain ⟨k', w⟩ := kv
    by_cases h : k' = k
    · simp [assocSet, h, lookupJ]
    · simp [assocSet, h, lookupJ, ih]

theorem lookupJ_assocErase_self (l : List (String × JValue)) (k : String) :
    lookupJ (assocErase l k) k = none := by
  induction l with
  | nil => rfl
  | cons kv rest ih =>
    obtain ⟨k', w⟩ := kv
    by_cases h : k' = k
    · simpa [assocErase, h] using ih
    · simpa [assocErase, h, lookupJ] using ih

theorem filter_ne_assocSet (l : List (String × JValue)) (k : String)
    (v : JValue) :
    (assocSet l k v).filter (fun kv => !(kv.1 == k)) =
      l.filter (fun kv => !(kv.1 == k)) := by
  induction l with
  | nil => simp [assocSet]
  | cons kv rest ih =>
    obtain ⟨k', w⟩ := kv
    by_cases h : k' = k
    · simp [assocSet, h]
    · simp [assocSet, h, ih]

theorem keys_assocSet_of_lookup (l : List (String × JValue)) (k : String)
    (v w : JValue) (h : lookupJ l k = some w) :
    (assocSet l k v).map (fun kv => kv.1) = l.map (fun kv => kv.1) := by
  induction l with
  | nil => simp [lookupJ] at h
  | cons kv rest ih =>
    obtain ⟨k', u⟩ := kv
    by_cases hk : k' = k
    · simp [assocSet, hk]
    · rw [lookupJ, if_neg hk] at h
      simp [assocSet, hk, ih h]

theorem getField_eq_some {v : JValue} {k : String} {w : JValue}
    (h : getField v k = some w) :
    ∃ fields, v = .jobj fields ∧ lookupJ fields k = some w := by
  cases v <;> simp_all [getField]

/-- A document accepted by `validate_configuration` is an object whose
`meta` section is an object carrying a string `lastUpdated` and a `version`
entry. -/
theorem validate_ok_shape {d : JValue}
    (h : validate_configuration d = .ok true) :
    ∃ fs ms lu, d = .jobj fs ∧ lookupJ fs "meta" = some (.jobj ms) ∧
      lookupJ ms "lastUpdated" = some (.jstr lu) := by
  have hv : validClientConfig d = true := by
    by_cases hv : validClientConfig d
    · exact hv
    · simp [validate_configuration, hv] at h
  cases d with
  | jobj fs =>
    simp only [validClientConfig, Bool.and_eq_true] at hv
    have hmeta := hv.1.1.1.1.1
    simp only [sectionOk] at hmeta
    split at hmeta
    case h_1 v heq =>
      cases v with
      | jobj ms =>
        simp only [validConfigMeta, Bool.and_eq_true] at hmeta
        have hlu := hmeta.1.1.2
        simp only [reqStrPat] at hlu
        split at hlu
        case h_1 s heq2 => exact ⟨fs, ms, s, rfl, heq, heq2⟩
        case h_2 => exact absurd hlu (by simp)
      | jnull => simp [validConfigMeta] at hmeta
      | jbool b => simp [validConfigMeta] at hmeta
      | jnum m e => simp [validConfigMeta] at hmeta
      | jstr s => simp [validConfigMeta] at hmeta
      | jarr xs => simp [validConfigMeta] at hmeta
    case h_2 => exact absurd hmeta (by simp)
  | jnull => simp [validClientConfig] at hv
  | jbool b => simp [validClientConfig] at hv
  | jnum m e => simp [validClientConfig] at hv
  | jstr s => simp [validClientConfig] at hv
  | jarr xs => simp [validClientConfig] at hv

/-- After an upsert into a store whose rows for this client (if any) are all
active, the first active row for the client holds the upserted document. -/
theorem findActiveRow_upsert (db : List ConfigRow) (cid : String)
    (cfg ver : JValue) (now : Nat)
    (hact : ∀ r ∈ db, r.client_id = cid → r.is_active = true) :
    ∃ r, findActiveRow (upsertRowDb db cid cfg ver now) cid = some r ∧
      r.config_data = cfg := by
  induction db with
  | nil =>
    refine ⟨⟨cid, cfg, ver, now, now, true⟩, ?_, rfl⟩
    simp [upsertRowDb, findActiveRow, List.find?]
  | cons r rest ih =>
    by_cases h : r.client_id = cid
    · refine ⟨{ r with config_data := cfg, version := ver, updated_at := now },
        ?_, rfl⟩
      have hr : r.is_active = true := hact r (by simp) h
      simp [upsertRowDb, h, findActiveRow, List.find?, hr]
    · obtain ⟨r', hfind, hcfg⟩ :=
        ih (fun x hx hcx => hact x (List.mem_cons_of_mem r hx) hcx)
      refine ⟨r', ?_, hcfg⟩
      simpa [upsertRowDb, h, findActiveRow, List.find?] using hfind

/-- After an upsert, the first row for the client (active or not) holds the
upserted document. -/
theorem findRow_upsert (db : List ConfigRow) (cid : String)
    (cfg ver : JValue) (now : Nat) :
    ∃ r, findRow (upsertRowDb db cid cfg ver now) cid = some r ∧
      r.config_data = cfg := by
  induction db with
  | nil =>
    refine ⟨⟨cid, cfg, ver, now, now, true⟩, ?_, rfl⟩
    simp [upsertRowDb, findRow, List.find?]
  | cons r rest ih =>
    by_cases h : r.client_id = cid
    · refine ⟨{ r with config_data := cfg, version := ver, updated_at := now },
        ?_, rfl⟩
      simp [upsertRowDb, h, findRow, List.find?]
    · obtain ⟨r', hfind, hcfg⟩ := ih
      refine ⟨r', ?_, hcfg⟩
      simpa [upsertRowDb, h, findRow, List.find?] using hfind

/-- The soft delete succeeds exactly when a row exists. -/
theorem markInactive_isSome (db : List ConfigRow) (cid : String) (now : Nat)
    (h : rowExists db cid = true) :
    ∃ db', markInactive db cid now = some db' := by
  induction db with
  | nil => simp [rowExists] at h
  | cons r rest ih =>
    by_cases hc : r.client_id = cid
    · exact ⟨{ r with is_active := false, updated_at := now } :: rest,
        by simp [markInactive, hc]⟩
    · have h' : rowExists rest cid = true := by
        simpa [rowExists, hc] using h
      obtain ⟨db', hdb'⟩ := ih h'
      exact ⟨r :: db', by simp [markInactive, hc, hdb']⟩

/-- The soft delete never removes or re-keys a row. -/
theorem markInactive_keys {db : List ConfigRow} {cid : String} {now : Nat}
    {db' : List ConfigRow} (h : markInactive db cid now = some db') :
    db'.map (fun r => r.client_id) = db.map (fun r => r.client_id) := by
  induction db generalizing db' with
  | nil => simp [markInactive] at h
  | cons r rest ih =>
    by_cases hc : r.client_id = cid
    · simp only [markInactive, if_pos hc, Option.some.injEq] at h
      subst h
      simp [hc]
    · simp only [markInactive, if_neg hc] at h
      cases hrest : markInactive rest cid now with
      | none => rw [hrest] at h; simp at h
      | some rest' =>
        rw [hrest] at h
        simp only [Option.map_some', Option.some.injEq] at h
        subst h
        simp [ih hrest]

/-- In a store with unique client ids, the soft delete leaves no active row
for the client. -/
theorem markInactive_no_active {db : List ConfigRow} {cid : String}
    {now : Nat} {db' : List ConfigRow}
    (hnodup : (db.map (fun r => r.client_id)).Nodup)
    (h : markInactive db cid now = some db') :
    ∀ r ∈ db', r.client_id = cid → r.is_active = false := by
  induction db generalizing db' with
  | nil => simp [markInactive] at h
  | cons r rest ih =>
    by_cases hc : r.client_id = cid
    · simp only [markInactive, if_pos hc, Option.some.injEq] at h
      subst h
      intro x hx hxcid
      rcases List.mem_cons.mp hx with hx | hx
      · subst hx; rfl
      · exfalso
        have : r.client_id ∈ rest.map (fun r => r.client_id) := by
          rw [hc]; rw [← hxcid] at *
          exact List.mem_map_of_mem _ hx
        exact (List.nodup_cons.mp hnodup).1 this
    · simp only [markInactive, if_neg hc] at h
      cases hrest : markInactive rest cid now with
      | none => rw [hrest] at h; simp at h
      | some rest' =>
        rw [hrest] at h
        simp only [Option.map_some', Option.some.injEq] at h
        subst h
        intro x hx hxcid
        rcases List.mem_cons.mp hx with hx | hx
        · subst hx; exact absurd hxcid hc
        · exact ih (List.nodup_cons.mp hnodup).2 hrest x hx hxcid

/-- `find?` misses when every row for the client is inactive. -/
theorem findActiveRow_eq_none {db : List ConfigRow} {cid : String}
    (h : ∀ r ∈ db, r.client_id = cid → r.is_active = false) :
    findActiveRow db cid = none := by
  rw [findActiveRow, List.find?_eq_none]
  intro x hx
  by_cases hc : x.client_id = cid
  · simp [h x hx hc]
  · simp [hc]

/-- Every entry produced by the metadata loop comes from one of the rows. -/
theorem mapMetadata_mem {rows : List ConfigRow} {es : List JValue}
    (h : mapMetadata rows = .ok es) :
    ∀ e ∈ es, ∃ r ∈ rows, rowMetadata r = .ok e := by
  induction rows generalizing es with
  | nil =>
    simp only [mapMetadata, Except.ok.injEq] at h
    subst h
    simp
  | cons r rest ih =>
    simp only [mapMetadata] at h
    cases hr : rowMetadata r with
    | error e0 => rw [hr] at h; simp at h
    | ok v =>
      rw [hr] at h
      cases hrest : mapMetadata rest with
      | error e0 => rw [hrest] at h; simp at h
      | ok vs =>
        rw [hrest] at h
        simp only [Except.ok.injEq] at h
        subst h
        intro e he
        rcases List.mem_cons.mp he with he | he
        · exact ⟨r, by simp, he ▸ hr⟩
        · obtain ⟨r', hr', hmeta⟩ := ih hrest e he
          exact ⟨r', List.mem_cons_of_mem r hr', hmeta⟩

/-- The metadata entry of a row names the row's client id. -/
theorem rowMetadata_clientId {r : ConfigRow} {e : JValue}
    (h : rowMetadata r = .ok e) :
    getField e "clientId" = some (.jstr r.client_id) := by
  cases hc : r.config_data with
  | jobj fields =>
    rw [rowMetadata, hc] at h
    simp only [Except.ok.injEq] at h
    rw [← h]
    rfl
  | jnull => rw [rowMetadata, hc] at h; simp at h
  | jbool b => rw [rowMetadata, hc] at h; simp at h
  | jnum m e => rw [rowMetadata, hc] at h; simp at h
  | jstr s => rw [rowMetadata, hc] at h; simp at h
  | jarr xs => rw [rowMetadata, hc] at h; simp at h

/-- `delete` reports success through `count > 0`; on a list model that is
`any`. -/
theorem decide_countP_pos_eq_any {α : Type} (p : α → Bool) (l : List α) :
    decide (0 < l.countP p) = l.any p := by
  rw [Bool.eq_iff_iff, decide_eq_true_iff, List.countP_pos_iff,
    List.any_eq_true]

/-! ## Claim theorems -/

/-- C3: a configuration document lacking any one of the required top-level
sections `meta`, `branding`, `features`, `ui` or `ai` is rejected by
`validate_configuration` with a `ConfigurationError` of code
`VALIDATION_ERROR` instead of returning `True`. -/
theorem claim3_missing_section_fails (config : JValue) (s : String)
    (hs : s ∈ (["meta", "branding", "features", "ui", "ai"] : List String))
    (hmiss : getField config s = none) :
    validate_configuration config = .error ⟨"VALIDATION_ERROR"⟩ := by
  have hv : validClientConfig config = false := by
    cases config with
    | jobj fields =>
      simp only [getField] at hmiss
      simp only [List.mem_cons, List.not_mem_nil, or_false] at hs
      rcases hs with h | h | h | h | h <;> subst h <;>
        simp [validClientConfig, sectionOk, hmiss]
    | jnull => simp [validClientConfig]
    | jbool b => simp [validClientConfig]
    | jnum m e => simp [validClientConfig]
    | jstr t => simp [validClientConfig]
    | jarr xs => simp [validClientConfig]
  simp [validate_configuration, hv]

/-- C3 witness: the empty object lacks `meta` and is rejected. -/
theorem claim3_witness :
    validate_configuration (.jobj []) = .error ⟨"VALIDATION_ERROR"⟩ :=
  claim3_missing_section_fails (.jobj []) "meta" (by simp) rfl

/-- C4: a configuration document whose `ai.model` value lies outside the
fixed enumerated model set is rejected by `validate_configuration`. -/
theorem claim4_model_outside_set_fails (config ai m : JValue)
    (hai : getField config "ai" = some ai)
    (hm : getField ai "model" = some m)
    (hnot : isAllowedModelVal m = false) :
    validate_configuration config = .error ⟨"VALIDATION_ERROR"⟩ := by
  obtain ⟨fields, rfl, hlk⟩ := getField_eq_some hai
  obtain ⟨aFields, rfl, hlkm⟩ := getField_eq_some hm
  have hreq : reqStrPat aFields "model"
      (fun s => availableModels.contains s) = false := by
    simp only [reqStrPat]
    rw [hlkm]
    cases m with
    | jstr s => simpa [isAllowedModelVal] using hnot
    | jnull => rfl
    | jbool b => rfl
    | jnum mm ee => rfl
    | jarr xs => rfl
    | jobj fs => rfl
  have hvAI : validAI (.jobj aFields) = false := by
    simp only [validAI]
    rw [hreq]
    rfl
  have hv : validClientConfig (.jobj fields) = false := by
    simp [validClientConfig, sectionOk, hlk, hvAI]
  simp [validate_configuration, hv]

/-- C4 witness: `ai.model = "gpt-5"` is rejected. -/
theorem claim4_witness :
    validate_configuration unknownModelDoc = .error ⟨"VALIDATION_ERROR"⟩ :=
  claim4_model_outside_set_fails unknownModelDoc
    (.jobj [("model", .jstr "gpt-5")]) (.jstr "gpt-5") rfl rfl rfl

/-- C2 (amended): when `languages.default` is present and truthy and is not
a Python member of `languages.supported` (the empty list when absent),
`validate_configuration` raises a `ConfigurationError` of code
`VALIDATION_ERROR`, whatever the validity of the remaining fields.  A falsy
present value — such as the empty string — bypasses the rule (see the
counterexample). -/
theorem claim2_default_language_rule (config lang dflt : JValue)
    (hlang : getField config "languages" = some lang)
    (hdef : getField lang "default" = some dflt)
    (htruthy : truthy dflt = true)
    (hnotin : pyIn dflt ((getField lang "supported").getD (.jarr []))
      ≠ .ok true) :
    validate_configuration config = .error ⟨"VALIDATION_ERROR"⟩ := by
  obtain ⟨lFields, rfl, hlkd⟩ := getField_eq_some hdef
  by_cases hv : validClientConfig config
  · have hbr : validateBusinessRules config = .error () := by
      rw [validateBusinessRules, hlang]
      simp only [Option.getD_some, getField] at hnotin ⊢
      rw [hlkd]
      simp only [Option.getD_some]
      rw [htruthy]
      simp only [if_true]
      cases hp : pyIn dflt ((lookupJ lFields "supported").getD (.jarr [])) with
      | error e => simp
      | ok b =>
        cases b with
        | true => exact absurd hp hnotin
        | false => simp
    simp [validate_configuration, hv, hbr]
  · simp [validate_configuration, hv]

/-- C2 witness: a truthy `languages.default = "de"` outside
`languages.supported = ["en"]` is rejected even on an otherwise-invalid
document. -/
theorem claim2_witness :
    validate_configuration germanDefaultLangDoc =
      .error ⟨"VALIDATION_ERROR"⟩ :=
  claim2_default_language_rule germanDefaultLangDoc
    (.jobj [("default", .jstr "de"), ("supported", .jarr [.jstr "en"])])
    (.jstr "de") rfl rfl rfl (by decide)

/-- C2 counterexample: the claim as stated is false.  `emptyDefaultLangDoc`
carries `languages.default = ""`, which is present and not a member of
`languages.supported = ["en"]` (third conjunct), yet
`validate_configuration` succeeds instead of raising: Python truthiness
(`if default_lang`) skips the rule for the empty string. -/
theorem claim2_counterexample :
    validate_configuration emptyDefaultLangDoc = .ok true ∧
    getField emptyDefaultLangDoc "languages" =
      some (.jobj [("default", .jstr ""), ("supported", .jarr [.jstr "en"])]) ∧
    pyIn (.jstr "") (.jarr [.jstr "en"]) = .ok false :=
  ⟨rfl, rfl, rfl⟩

/-- C1 (amended): a document that passes validation saves successfully and,
provided every pre-existing row for the client is still active (the client
has not been soft-deleted), a subsequent get returns the document with
`meta.lastUpdated` replaced by the save-time timestamp.  Without the
active-row proviso the property fails (see the counterexample): the upsert
never restores the active flag of a soft-deleted row. -/
theorem claim1_save_get_roundtrip (st : ManagerState) (cid : String)
    (d : JValue) (tIso : String) (tUtc : Nat)
    (hval : validate_configuration d = .ok true)
    (hact : ∀ r ∈ st.db, r.client_id = cid → r.is_active = true) :
    saveResult st cid d tIso tUtc = .ok true ∧
    getConfigDoc (saveState st cid d tIso tUtc) cid =
      .ok (setMetaLastUpdated d tIso) := by
  have hsave : save_configuration st cid d tIso tUtc =
      .ok (true,
        { st with
          db := upsertRowDb st.db cid (setMetaLastUpdated d tIso)
            (((getField (setMetaLastUpdated d tIso) "meta").bind
              (fun m => getField m "version")).getD .jnull) tUtc,
          cache := assocErase st.cache (cacheKey cid) }) := by
    rw [save_configuration, hval]
  constructor
  · rw [saveResult, hsave]
    rfl
  · rw [saveState, hsave]
    obtain ⟨r, hfind, hcfg⟩ := findActiveRow_upsert st.db cid
      (setMetaLastUpdated d tIso)
      (((getField (setMetaLastUpdated d tIso) "meta").bind
        (fun m => getField m "version")).getD .jnull) tUtc hact
    simp only [getConfigDoc, get_configuration, lookupJ_assocErase_self,
      getFromDb, hfind, hcfg]
    rfl

/-- C1 witness: the roundtrip at a fresh manager state. -/
theorem claim1_witness :
    saveResult emptyState "demo-client" validDemoDoc
      "2025-06-01T00:00:00+00:00" 1 = .ok true ∧
    getConfigDoc (saveState emptyState "demo-client" validDemoDoc
      "2025-06-01T00:00:00+00:00" 1) "demo-client" =
      .ok (setMetaLastUpdated validDemoDoc "2025-06-01T00:00:00+00:00") :=
  claim1_save_get_roundtrip emptyState "demo-client" validDemoDoc
    "2025-06-01T00:00:00+00:00" 1 rfl (by simp [emptyState])

/-- C1 counterexample: the claim as stated is false.  Over a state whose
`demo-client` row was soft-deleted, the valid document saves successfully
(`.ok true`), but the following get returns the default `{}` — not the saved
document: the two final conjuncts separate `{}` from the stamped document by
their `meta.lastUpdated` observation. -/
theorem claim1_counterexample :
    validate_configuration validDemoDoc = .ok true ∧
    saveResult softDeletedState "demo-client" validDemoDoc
      "2025-06-01T00:00:00+00:00" 1 = .ok true ∧
    getConfigDoc (saveState softDeletedState "demo-client" validDemoDoc
      "2025-06-01T00:00:00+00:00" 1) "demo-client" = .ok (.jobj []) ∧
    metaLastUpdated (setMetaLastUpdated validDemoDoc
      "2025-06-01T00:00:00+00:00") =
      some (.jstr "2025-06-01T00:00:00+00:00") ∧
    metaLastUpdated (.jobj []) = none :=
  ⟨rfl, rfl, rfl, rfl, rfl⟩

/-- C10: on a validated document, the save-time stamp overwrites exactly
`meta.lastUpdated`: every other top-level entry, every other `meta` entry
and both key sets are untouched, and the row persisted by
`save_configuration` holds precisely the stamped document. -/
theorem claim10_stamp_frame (st : ManagerState) (cid : String) (d : JValue)
    (tIso : String) (tUtc : Nat)
    (hval : validate_configuration d = .ok true) :
    metaLastUpdated (setMetaLastUpdated d tIso) = some (.jstr tIso) ∧
    objEraseKey (setMetaLastUpdated d tIso) "meta" = objEraseKey d "meta" ∧
    objKeys (setMetaLastUpdated d tIso) = objKeys d ∧
    (getField (setMetaLastUpdated d tIso) "meta").map
        (fun m => objEraseKey m "lastUpdated") =
      (getField d "meta").map (fun m => objEraseKey m "lastUpdated") ∧
    (getField (setMetaLastUpdated d tIso) "meta").map objKeys =
      (getField d "meta").map objKeys ∧
    savedRowDoc st cid d tIso tUtc = some (setMetaLastUpdated d tIso) := by
  obtain ⟨fs, ms, lu, rfl, hmeta, hlu⟩ := validate_ok_shape hval
  have hstamp : setMetaLastUpdated (.jobj fs) tIso =
      .jobj (assocSet fs "meta"
        (.jobj (assocSet ms "lastUpdated" (.jstr tIso)))) := by
    rw [setMetaLastUpdated, hmeta]
  refine ⟨?_, ?_, ?_, ?_, ?_, ?_⟩
  · rw [hstamp]
    simp [metaLastUpdated, getField, lookupJ_assocSet_self]
  · rw [hstamp]
    simp [objEraseKey, filter_ne_assocSet]
  · rw [hstamp]
    simp only [objKeys]
    exact keys_assocSet_of_lookup fs "meta" _ _ hmeta
  · rw [hstamp]
    simp [getField, lookupJ_assocSet_self, hmeta, objEraseKey,
      filter_ne_assocSet]
  · rw [hstamp]
    simp only [getField, lookupJ_assocSet_self, hmeta, Option.map_some']
    simp only [objKeys]
    rw [keys_assocSet_of_lookup ms "lastUpdated" _ _ hlu]
  · have hsave : save_configuration st cid (.jobj fs) tIso tUtc =
        .ok (true,
          { st with
            db := upsertRowDb st.db cid (setMetaLastUpdated (.jobj fs) tIso)
              (((getField (setMetaLastUpdated (.jobj fs) tIso) "meta").bind
                (fun m => getField m "version")).getD .jnull) tUtc,
            cache := assocErase st.cache (cacheKey cid) }) := by
      rw [save_configuration, hval]
    obtain ⟨r, hfind, hcfg⟩ := findRow_upsert st.db cid
      (setMetaLastUpdated (.jobj fs) tIso)
      (((getField (setMetaLastUpdated (.jobj fs) tIso) "meta").bind
        (fun m => getField m "version")).getD .jnull) tUtc
    simp only [savedRowDoc, saveState, hsave, hfind, Option.map_some', hcfg]

/-- C10 witness: the frame conditions at a concrete document and state. -/
theorem claim10_witness :
    metaLastUpdated (setMetaLastUpdated validDemoDoc "T2") =
      some (.jstr "T2") ∧
    objEraseKey (setMetaLastUpdated validDemoDoc "T2") "meta" =
      objEraseKey validDemoDoc "meta" ∧
    objKeys (setMetaLastUpdated validDemoDoc "T2") = objKeys validDemoDoc ∧
    (getField (setMetaLastUpdated validDemoDoc "T2") "meta").map
        (fun m => objEraseKey m "lastUpdated") =
      (getField validDemoDoc "meta").map
        (fun m => objEraseKey m "lastUpdated") ∧
    (getField (setMetaLastUpdated validDemoDoc "T2") "meta").map objKeys =
      (getField validDemoDoc "meta").map objKeys ∧
    savedRowDoc emptyState "demo-client" validDemoDoc "T2" 2 =
      some (setMetaLastUpdated validDemoDoc "T2") :=
  claim10_stamp_frame emptyState "demo-client" validDemoDoc "T2" 2 rfl

/-- Helper for C7: a state none of whose rows for a client are active never
mentions that client in a successful listing. -/
theorem listedHasClient_eq_false {s : ManagerState} {cid : String}
    (h : ∀ r ∈ s.db, r.client_id = cid → r.is_active = false) :
    listedHasClient s cid = false := by
  rw [listedHasClient, list_configurations]
  cases hm : mapMetadata (s.db.filter fun r => r.is_active) with
  | error e => rfl
  | ok l =>
    have hgoal : (match (match Except.ok (ε := ConfigurationError) l with
        | .ok l => Except.ok (ε := ConfigurationError) l
        | .error _ => .error ⟨"LIST_ERROR"⟩) with
      | .ok l => l.any (fun e =>
          match getField e "clientId" with
          | some (.jstr s) => s == cid
          | _ => false)
      | .error _ => false) = l.any (fun e =>
          match getField e "clientId" with
          | some (.jstr s) => s == cid
          | _ => false) := rfl
    rw [hgoal, List.any_eq_false]
    intro e he
    obtain ⟨r, hrmem, hmeta⟩ := mapMetadata_mem hm e he
    have hr1 := (List.mem_filter.mp hrmem).1
    have hr2 : r.is_active = true := by
      simpa using (List.mem_filter.mp hrmem).2
    have hrcid : (r.client_id == cid) = false := by
      have hne : ¬ r.client_id = cid := by
        intro hceq
        rw [h r hr1 hceq] at hr2
        cases hr2
      simpa using hne
    rw [rowMetadata_clientId hmeta]
    simp [hrcid]

/-- C7: with unique client ids, once a client's row exists,
`delete_configuration` succeeds; the row is only marked inactive (the
client-id column is preserved row-for-row) and never removed; afterwards no
active row remains, a get returns the default document, and the listing
excludes the client. -/
theorem claim7_soft_delete (st : ManagerState) (cid : String) (now : Nat)
    (hnodup : (st.db.map (fun r => r.client_id)).Nodup)
    (hrow : rowExists st.db cid = true) :
    deleteResult st cid now = .ok true ∧
    (deleteState st cid now).db.map (fun r => r.client_id) =
      st.db.map (fun r => r.client_id) ∧
    findActiveRow (deleteState st cid now).db cid = none ∧
    getConfigDoc (deleteState st cid now) cid = .ok st.default_config ∧
    listedHasClient (deleteState st cid now) cid = false := by
  obtain ⟨db2, hdb2⟩ := markInactive_isSome st.db cid now hrow
  have hstate : deleteState st cid now =
      { st with db := db2, cache := assocErase st.cache (cacheKey cid) } := by
    simp [deleteState, delete_configuration, hdb2]
  have hres : deleteResult st cid now = .ok true := by
    simp [deleteResult, delete_configuration, hdb2, Except.map]
  have hnoact := markInactive_no_active hnodup hdb2
  have hfind : findActiveRow db2 cid = none := findActiveRow_eq_none hnoact
  refine ⟨hres, ?_, ?_, ?_, ?_⟩
  · rw [hstate]
    exact markInactive_keys hdb2
  · rw [hstate]
    exact hfind
  · rw [hstate]
    simp only [getConfigDoc, get_configuration, lookupJ_assocErase_self,
      getFromDb, hfind]
    rfl
  · rw [hstate]
    exact listedHasClient_eq_false hnoact

/-- C7 witness: soft delete at a one-row state. -/
theorem claim7_witness :
    deleteResult oneRowState "demo-client" 9 = .ok true ∧
    (deleteState oneRowState "demo-client" 9).db.map
        (fun r => r.client_id) =
      oneRowState.db.map (fun r => r.client_id) ∧
    findActiveRow (deleteState oneRowState "demo-client" 9).db
      "demo-client" = none ∧
    getConfigDoc (deleteState oneRowState "demo-client" 9) "demo-client" =
      .ok oneRowState.default_config ∧
    listedHasClient (deleteState oneRowState "demo-client" 9)
      "demo-client" = false :=
  claim7_soft_delete oneRowState "demo-client" 9 (by simp [oneRowState])
    rfl

/-- C6: on a cache miss, `get_configuration` returns the stored document of
the active row (and populates the cache with it) when such a row exists, and
the global default document — not an error — when none does. -/
theorem claim6_get_resolution (st : ManagerState) (cid : String)
    (hmiss : cacheHit st cid = false) :
    get_configuration st cid =
      match findActiveRow st.db cid with
      | some r =>
        .ok (r.config_data,
          { st with cache := assocSet st.cache (cacheKey cid) r.config_data })
      | none => .ok (st.default_config, st) := by
  rw [get_configuration]
  cases hl : lookupJ st.cache (cacheKey cid) with
  | none => rw [getFromDb]
  | some v =>
    have hv : truthy v = false := by
      simpa [cacheHit, hl] using hmiss
    simp only [hv, Bool.false_eq_true, if_false]
    rw [getFromDb]

/-- C6 witness: resolution against a one-row state with an empty cache. -/
theorem claim6_witness :
    get_configuration oneRowState "demo-client" =
      match findActiveRow oneRowState.db "demo-client" with
      | some r =>
        .ok (r.config_data,
          { oneRowState with
            cache := assocSet oneRowState.cache (cacheKey "demo-client")
              r.config_data })
      | none => .ok (oneRowState.default_config, oneRowState) :=
  claim6_get_resolution oneRowState "demo-client" rfl

/-- C5: `get_feature_flag` is a total function (the model's rendering of
"never raises") equal to the specification-side lookup: the value stored at
`features[name]` in the resolved configuration, and `False` when the flag is
absent or when any step of the resolution fails (resolution error,
non-object document, non-object `features`). -/
theorem claim5_feature_flag_total (st : ManagerState) (cid name : String) :
    get_feature_flag st cid name =
      match getConfigDoc st cid with
      | .ok cfg => (featuresValue cfg name).getD (.jbool false)
      | .error _ => .jbool false := by
  rw [get_feature_flag, getConfigDoc]
  cases hg : get_configuration st cid with
  | error e => rfl
  | ok p =>
    obtain ⟨cfg, st2⟩ := p
    cases cfg with
    | jobj fields =>
      cases hf : lookupJ fields "features" with
      | none => simp [featuresValue, getField, hf, lookupJ, Except.map]
      | some w => cases w <;> simp [featuresValue, getField, hf, Except.map]
    | jnull => simp [featuresValue, getField, Except.map]
    | jbool b => simp [featuresValue, getField, Except.map]
    | jnum m e => simp [featuresValue, getField, Except.map]
    | jstr s => simp [featuresValue, getField, Except.map]
    | jarr xs => simp [featuresValue, getField, Except.map]

/-- C8 (amended): when Redis is unavailable, `clear_cached_config` returns
`False` and deletes nothing.  When Redis is available: for a (nonempty)
specific file name it returns exactly whether that key existed, and an
immediate second call for the same key does not error — it returns `False`
and leaves the keyspace unchanged; the clear-all form, however, returns
`True` even when nothing was deleted (see the counterexample). -/
theorem claim8_cache_clear (redis : List (String × JValue)) (f : String)
    (hf : f.toList.isEmpty = false) :
    clear_cached_config false redis (some f) = (false, redis) ∧
    (clear_cached_config true redis (some f)).1 =
      redis.any (fun kv => kv.1 == get_redis_key f) ∧
    clear_cached_config true
        (clear_cached_config true redis (some f)).2 (some f) =
      (false, (clear_cached_config true redis (some f)).2) ∧
    (clear_cached_config true redis none).1 = true := by
  have hne : f.data ≠ [] := by
    intro h
    rw [show f.toList = f.data from rfl, h] at hf
    simp at hf
  have hsingle : clear_cached_config true redis (some f) =
      (decide (0 < redis.countP (fun kv => kv.1 == get_redis_key f)),
       redis.filter (fun kv => !(kv.1 == get_redis_key f))) := by
    rw [clear_cached_config]
    simp [hf]
    intro h
    exact absurd h hne
  refine ⟨rfl, ?_, ?_, ?_⟩
  · rw [hsingle]
    exact decide_countP_pos_eq_any _ _
  · rw [hsingle]
    rw [clear_cached_config]
    simp [hf, List.countP_filter, List.filter_filter]
    intro h
    exact absurd h hne
  · rw [clear_cached_config]
    by_cases hk : (redis.filter (fun kv => startsWithConfig kv.1)).isEmpty
    · simp [clearAllConfigKeys, hk]
    · have hpos : 0 <
          (redis.filter (fun kv => startsWithConfig kv.1)).length :=
        List.length_pos.mpr (by simpa [List.isEmpty_iff] using hk)
      simp [clearAllConfigKeys, hk, hpos]

/-- C8 witness: the amended contract at an empty keyspace and the default
configuration file name. -/
theorem claim8_witness :
    clear_cached_config false [] (some "client-config.json") =
      (false, []) ∧
    (clear_cached_config true [] (some "client-config.json")).1 =
      ([] : List (String × JValue)).any
        (fun kv => kv.1 == get_redis_key "client-config.json") ∧
    clear_cached_config true
        (clear_cached_config true [] (some "client-config.json")).2
        (some "client-config.json") =
      (false,
       (clear_cached_config true [] (some "client-config.json")).2) ∧
    (clear_cached_config true [] none).1 = true :=
  claim8_cache_clear [] "client-config.json" rfl

/-- C8 counterexample: the claim as stated is false for the clear-all case.
On an empty keyspace with Redis available, `clear_cached_config(None)`
returns `True` while the keyspace is unchanged — nothing was deleted, so the
returned Boolean is not "whether anything was deleted". -/
theorem claim8_counterexample :
    clear_cached_config true [] none = (true, []) := rfl

/-- C9: `EnvironmentConfig.get(key, default, bool)` returns `True` exactly
when the lowercased string form of the present value is one of
`true`, `1`, `yes`, `on` and `False` for every other present value; on
absence the default is substituted — returned as-is when it is `None` or a
boolean, and bool-cast like a value otherwise. -/
theorem claim9_bool_cast (env : String → Option String) (key : String)
    (d : PyVal) :
    envGetBool env key d =
      match env key with
      | some s => .pybool (boolTrueStrings.contains (lowerStr s))
      | none =>
        match d with
        | .pynone => .pynone
        | .pybool b => .pybool b
        | .pyint n =>
          .pybool (boolTrueStrings.contains (lowerStr (pyStr (.pyint n))))
        | .pystr s => .pybool (boolTrueStrings.contains (lowerStr s)) := by
  rw [envGetBool]
  cases he : env key with
  | some s => rfl
  | none =>
    cases d with
    | pynone => rfl
    | pybool b => cases b <;> rfl
    | pyint n => rfl
    | pystr s => rfl

end Ally
